import Mathlib

/-!
Shallow embedding of the query-routing workflow engine of the AIconsal
backend (`backend/app/services/...`), covering:

* `tools/detect.py`   — `detect_tool_request`
* `tools/registry.py` — `async_execute_tool` and the builtin runners
* `llm/gemini.py`     — `GeminiProvider.generate` (retry / backoff / fallback)
* `langgraph_service.py` — the LangGraph workflow nodes and
  `LangGraphService.process_query`

Strings are modelled as `List Char` so that Python's `str.strip()`,
`str.lower()` and slicing can be reasoned about character by character.
External effects (the remote LLM, wall-clock time, thread execution) are
passed in as explicit oracle parameters; everything else is translated
directly from the source.
-/

set_option maxHeartbeats 1000000

namespace AIconsal

/-- Python strings, modelled as lists of characters. -/
abbrev Str := List Char

/-- Coerce a Lean string literal to the `List Char` model. -/
def strOf (s : String) : Str := s.data

/-- Whitespace class used by Python's `str.strip()` (ASCII subset; the
prefixes and keywords the code compares against are all non-whitespace under
any definition). -/
def pyIsSpace (c : Char) : Bool :=
  c = ' ' || c = '\t' || c = '\n' || c = '\x0d' || c = '\x0b' || c = '\x0c'

/-- Remove leading whitespace (`str.lstrip()`). -/
def stripL (l : Str) : Str := l.dropWhile pyIsSpace

/-- Remove trailing whitespace (`str.rstrip()`). -/
def stripR (l : Str) : Str := (l.reverse.dropWhile pyIsSpace).reverse

/-- Python `str.strip()`: drop leading and trailing whitespace. -/
def pyStrip (l : Str) : Str := stripR (stripL l)

/-- Per-character lowering, modelling `str.lower()` on the ASCII range the
code's prefix/keyword comparisons live in. -/
def lowerChar (c : Char) : Char :=
  if 'A' ≤ c ∧ c ≤ 'Z' then Char.ofNat (c.toNat + 32) else c

/-- Python `str.lower()`. -/
def pyLower (l : Str) : Str := l.map lowerChar

/-- `needle in haystack` for Python strings (substring containment). -/
def pyContains (haystack needle : Str) : Bool :=
  haystack.tails.any fun t => needle.isPrefixOf t

end AIconsal

namespace AIconsal

/-! ### `app/services/tools/detect.py` -/

/-- `detect_tool_request(text)`: detect an explicit tool prefix.
Returns `(tool_name, argument)` or `(none, none)`.  Mirrors the source:
generic `tool:<sub>:` form first, then the direct prefixes
`sql:` / `web:` / `search:` (alias of `web`). -/
def detect_tool_request (text : Str) : Option Str × Option Str :=
  if text = [] then (none, none)
  else
    let raw := pyStrip text
    if (strOf "tool:").isPrefixOf (pyLower raw) then
      let rest := pyStrip (raw.drop 5)
      if (strOf "sql:").isPrefixOf (pyLower rest) then
        (some (strOf "sql"), some (pyStrip (rest.drop 4)))
      else if (strOf "web:").isPrefixOf (pyLower rest) then
        (some (strOf "web"), some (pyStrip (rest.drop 4)))
      else if (strOf "search:").isPrefixOf (pyLower rest) then
        (some (strOf "web"), some (pyStrip (rest.drop 7)))
      else (none, none)
    else if (strOf "sql:").isPrefixOf (pyLower raw) then
      (some (strOf "sql"), some (pyStrip (raw.drop 4)))
    else if (strOf "web:").isPrefixOf (pyLower raw) then
      (some (strOf "web"), some (pyStrip (raw.drop 4)))
    else if (strOf "search:").isPrefixOf (pyLower raw) then
      (some (strOf "web"), some (pyStrip (raw.drop 7)))
    else (none, none)

end AIconsal

namespace AIconsal

end AIconsal

namespace AIconsal

/-! ### `app/services/tools/{types,sql,web,registry}.py` -/

/-- `ToolResult` (pydantic model in `tools/types.py`). -/
structure ToolResult where
  tool : Str
  input : Str
  output : Str
  took_ms : Option Int := none
  error : Option Str := none
deriving Repr, DecidableEq

namespace sql

/-- `sql.run(arg)`: placeholder SQL tool output. -/
def run (arg : Str) : Str :=
  strOf "[SQL Tool] まだ有効化されていません。\n将来的には安全な読み取り専用クエリ実行（パラメータ化・監査ログ・タイムアウト）を提供予定です。\n受領クエリ候補: " ++ arg

end sql

namespace web

/-- `web.run(arg)`: placeholder web-search tool output. -/
def run (arg : Str) : Str :=
  strOf "[Web Search Tool] まだ有効化されていません。\n将来的には検索プロバイダ統合＋要約（ソース出典付き）・レート制御・キャッシュを提供予定です。\n受領検索語: " ++ arg

end web

/-- `TOOL_RUNNERS`: canonical tool name → handler. -/
def TOOL_RUNNERS (name : Str) : Option (Str → Str) :=
  if name = strOf "sql" then some sql.run
  else if name = strOf "web" then some web.run
  else none

/-- Outcome of awaiting the (possibly thread-wrapped) runner under
`asyncio.wait_for`: it either yields the runner's value, times out, or
raises some other exception whose `str(e)` is `msg`. -/
inductive ExecOutcome where
  | ok
  | timeout
  | exc (msg : Str)
deriving Repr, DecidableEq

/-- Fixed guidance message for a missing tool name. -/
def unknownToolMsg : Str :=
  strOf "不明なツールが指定されました。サポートされている例: sql:, web: / search:"

/-- Stand-in for Python's rendering of the float `timeout_s` inside the
timeout error message (only non-emptiness of the message matters). -/
def floatRepr (q : ℚ) : Str := strOf (toString q)

/-- `async_execute_tool(tool, arg, timeout_s)`.

`oc` is the outcome of awaiting the runner and `took` the measured
wall-clock elapsed milliseconds (both external to the function's logic). -/
def async_execute_tool (tool : Option Str) (arg : Str) (timeout_s : ℚ)
    (oc : ExecOutcome) (took : Int) : ToolResult :=
  let name := pyLower (tool.getD [])
  if name = [] then
    { tool := [], input := arg, output := unknownToolMsg,
      error := some (strOf "unknown_tool"), took_ms := some took }
  else
    match TOOL_RUNNERS name with
    | none =>
        { tool := name, input := arg,
          output := strOf "[Tool:" ++ tool.getD [] ++
            strOf "] まだ有効化されていません。入力: " ++ arg,
          error := some (strOf "unsupported_tool"), took_ms := some took }
    | some runner =>
        match oc with
        | .ok =>
            { tool := name, input := arg, output := runner arg,
              took_ms := some took }
        | .timeout =>
            { tool := name, input := arg, output := [],
              error := some (strOf "timeout after " ++ floatRepr timeout_s ++
                strOf "s"),
              took_ms := some took }
        | .exc msg =>
            { tool := name, input := arg, output := [],
              error := some msg, took_ms := some took }

end AIconsal

namespace AIconsal

end AIconsal

namespace AIconsal

/-! ### `app/services/llm/gemini.py` — `GeminiProvider.generate` -/

/-- Outcome of one awaited `generate_content_async` call (primary or
fallback): a response whose `text` attribute is the given string (a missing
or non-string attribute is the empty string), a `wait_for` timeout, or any
other exception with its `isinstance(e, ResourceExhausted)` flag and
`str(e)` text. -/
inductive GenAttempt where
  | ok (text : Str)
  | timeout
  | exc (isResourceExhausted : Bool) (msg : Str)
deriving Repr, DecidableEq

/-- The exception values the function stores in `last_err`. -/
inductive PyErr where
  | timeoutErr (msg : Str)
  | emptyText
  | excErr (isResourceExhausted : Bool) (msg : Str)
deriving Repr, DecidableEq

/-- `str(e)` for a stored error (`ValueError("empty response text")` renders
as its message). -/
def pyErrStr : PyErr → Str
  | .timeoutErr msg => msg
  | .emptyText => strOf "empty response text"
  | .excErr _ msg => msg

/-- `isinstance(e, ResourceExhausted)`. -/
def isResourceExhaustedErr : PyErr → Bool
  | .excErr b _ => b
  | _ => false

/-- `isinstance(e, asyncio.TimeoutError)`. -/
def isTimeoutErr : PyErr → Bool
  | .timeoutErr _ => true
  | _ => false

/-- The token scan of `_is_rate_limit_error` over `str(e).lower()`. -/
def rateLimitText (t : Str) : Bool :=
  pyContains (pyLower t) (strOf "429") ||
  pyContains (pyLower t) (strOf "rate limit") ||
  pyContains (pyLower t) (strOf "quota") ||
  pyContains (pyLower t) (strOf "exceeded")

/-- `GeminiProvider._is_rate_limit_error(e)`. -/
def is_rate_limit_error (e : PyErr) : Bool :=
  isResourceExhaustedErr e || rateLimitText (pyErrStr e)

/-- `f"timeout after {timeout_s}s"`. -/
def timeoutErrText (timeout_s : ℚ) : Str :=
  strOf "timeout after " ++ floatRepr timeout_s ++ strOf "s"

/-- Configuration surface of `generate` (settings defaults in
`core/config.py`). -/
structure GenCfg where
  maxRetries : Nat := 3
  baseBackoff : ℚ := 2
  timeoutS : ℚ := 30
  fallbackConfigured : Bool := true
  isConfigured : Bool := true

/-- How the primary retry loop ended. -/
inductive LoopExit where
  | returned (text : Str)
  | fellThrough (lastErr : Option PyErr)
deriving Repr, DecidableEq

/-- Result of the primary retry loop: how it exited, how many primary calls
were issued, and the backoff sleeps performed (in order). -/
structure LoopRes where
  exit : LoopExit
  attempts : Nat
  sleeps : List ℚ
deriving Repr, DecidableEq

/-- The `for attempt in range(max_retries)` loop of `generate`, over the
remaining attempt indices.  `primary i` is the outcome of the `i`-th awaited
primary-model call. -/
def genLoop (primary : Nat → GenAttempt) (base timeout_s : ℚ) :
    List Nat → Option PyErr → LoopRes
  | [], lastErr => ⟨.fellThrough lastErr, 0, []⟩
  | i :: rest, _ =>
    match primary i with
    | .ok raw =>
        let text := pyStrip raw
        if text = [] then ⟨.fellThrough (some .emptyText), 1, []⟩
        else ⟨.returned text, 1, []⟩
    | .timeout =>
        ⟨.fellThrough (some (.timeoutErr (timeoutErrText timeout_s))), 1, []⟩
    | .exc isRE msg =>
        let e : PyErr := .excErr isRE msg
        if is_rate_limit_error e then
          let r := genLoop primary base timeout_s rest (some e)
          ⟨r.exit, r.attempts + 1, base * 2 ^ i :: r.sleeps⟩
        else ⟨.fellThrough (some e), 1, []⟩

/-- Final result of `generate`: the returned string, how many primary and
fallback calls were issued, and the backoff sleeps performed. -/
structure GenResult where
  text : Str
  primaryAttempts : Nat
  fallbackAttempts : Nat
  sleeps : List ℚ
deriving Repr, DecidableEq

def notConfiguredMsg : Str :=
  strOf "申し訳ございません。現在Gemini APIが設定されていないため、回答を提供できません。API設定を確認してください。"

def rateLimitMsg : Str :=
  strOf "現在リクエストが集中しているため回答できません。数十秒後に再度お試しください。"

def llmTimeoutMsg : Str :=
  strOf "LLMの応答に時間がかかっています。しばらくしてから再度お試しください。"

def genericFailMsg : Str :=
  strOf "申し訳ございません。現在回答を生成できませんでした。しばらくしてからお試しください。"

/-- `GeminiProvider.generate(prompt)`.  `primary i` / `fallback` are the
outcomes of the awaited model calls (the prompt itself does not influence the
control flow embedded here). -/
def generate (cfg : GenCfg) (primary : Nat → GenAttempt)
    (fallback : GenAttempt) : GenResult :=
  if ¬ cfg.isConfigured then ⟨notConfiguredMsg, 0, 0, []⟩
  else
    let lr := genLoop primary cfg.baseBackoff cfg.timeoutS
      (List.range cfg.maxRetries) none
    match lr.exit with
    | .returned text => ⟨text, lr.attempts, 0, lr.sleeps⟩
    | .fellThrough lastErr =>
      let stage :
          Nat × Option Str × Option PyErr :=
        if cfg.fallbackConfigured then
          match fallback with
          | .ok raw =>
              let fb := pyStrip raw
              if fb = [] then (1, none, lastErr) else (1, some fb, lastErr)
          | .timeout =>
              (1, none, some (.timeoutErr (timeoutErrText cfg.timeoutS)))
          | .exc isRE msg => (1, none, some (.excErr isRE msg))
        else (0, none, lastErr)
      match stage.2.1 with
      | some t => ⟨t, lr.attempts, stage.1, lr.sleeps⟩
      | none =>
        let msg :=
          match stage.2.2 with
          | some e =>
              if is_rate_limit_error e then rateLimitMsg
              else if isTimeoutErr e then llmTimeoutMsg
              else genericFailMsg
          | none => genericFailMsg
        ⟨msg, lr.attempts, stage.1, lr.sleeps⟩

end AIconsal

namespace AIconsal

end AIconsal

namespace AIconsal

/-! ### `app/services/langgraph_service.py` — workflow state and nodes

External effects are supplied through an `Env` record: whether the LLM
provider reports itself configured, the outcome of the single classification
call, which keys are present in the v2 agent registry (`_REGISTRY_V2` in
`agents/registry.py` holds `general`, `python` and `manufacturing`; tests
remove entries, so it is a parameter), the outcome of each dispatched agent
call, the tool-execution outcome, and the wall clock. -/

/-- Python truthiness of an optional string (`None` and `""` are falsy). -/
def truthyOpt (o : Option Str) : Bool :=
  match o with
  | none => false
  | some s => s ≠ []

/-- A `decision_trace` entry (plain dict in the source). -/
structure TraceEvent where
  type : Str
  name : Option Str := none
  reason : Option Str := none
  tool_input : Option Str := none
  took_ms : Option Int := none
  error : Option Str := none
  ts : Int := 0
deriving Repr, DecidableEq

/-- `WorkflowState` (TypedDict).  `NotRequired` optional fields are merged
with their `None` value (the source only reads them through `.get`, which
treats both alike).  `messages` carries the `add_messages`-reduced
(role, content) log. -/
structure WorkflowState where
  user_query : Str
  conversation_history : Str
  file_context : Str
  query_type : Str
  response : Str
  error : Option Str := none
  thread_id : Option Str := none
  tool_name : Option Str := none
  tool_input : Option Str := none
  messages : List (Str × Str) := []
  debug : Bool := false
  decision_trace : List TraceEvent := []
deriving Repr, DecidableEq

/-- `LangGraphService._append_trace`. -/
def appendTrace (st : WorkflowState) (ev : TraceEvent) : WorkflowState :=
  if st.debug then { st with decision_trace := st.decision_trace ++ [ev] }
  else st

/-- Outcome of the awaited classification call `self._llm.generate(...)`. -/
inductive ClassifyOutcome where
  | reply (text : Str)
  | exc (msg : Str)
deriving Repr, DecidableEq

/-- Outcome of awaiting `agent_v2(self._llm, inp)` for one category. -/
inductive AgentOutcome where
  | ok (content : Str)
  | exc (msg : Str)
deriving Repr, DecidableEq

/-- External collaborators of one workflow invocation. -/
structure Env where
  llmConfigured : Bool
  classify : ClassifyOutcome
  registered : Str → Bool
  agent : Str → AgentOutcome
  toolExec : ExecOutcome
  toolTook : Int
  now : Int

/-- The category → agent-name map used when emitting `agent_selected`
(`agent_map.get(query_type, query_type)`). -/
def agentNameFor (qt : Str) : Str :=
  if qt = strOf "manufacturing" then strOf "manufacturing_advisor"
  else if qt = strOf "python" then strOf "python_mentor"
  else if qt = strOf "general" then strOf "general_responder"
  else qt

/-- Tail of `_analyze_query` shared by the LLM and keyword branches: store
the category and, when debugging an agent category, append the
`agent_selected` event. -/
def finishClassified (env : Env) (st : WorkflowState) (qt reason : Str) :
    WorkflowState :=
  let st1 := { st with query_type := qt }
  let ev : TraceEvent :=
    { type := strOf "agent_selected", name := some (agentNameFor qt),
      reason := some reason, ts := env.now }
  if st1.debug ∧ (qt = strOf "manufacturing" ∨ qt = strOf "python" ∨
      qt = strOf "general") then
    appendTrace st1 ev
  else st1

/-- `LangGraphService._analyze_query`.  The surrounding `try` can only be
left abnormally by the classification call; the handler stores
`query_type = "general"` and returns the state. -/
def analyzeQuery (env : Env) (st0 : WorkflowState) : WorkflowState :=
  let d := detect_tool_request st0.user_query
  if truthyOpt d.1 then
    let st1 :=
      { st0 with
          query_type := strOf "tool", tool_name := d.1,
          tool_input := d.2 }
    let ev : TraceEvent :=
      { type := strOf "tool_detected", name := d.1,
        reason := some (strOf "明示的なツール指定"), ts := env.now }
    if st1.debug then appendTrace st1 ev else st1
  else if (strOf "tool:").isPrefixOf (pyLower (pyStrip st0.user_query)) then
    let st1 :=
      { st0 with
          query_type := strOf "tool", tool_name := none,
          tool_input := some (pyStrip (st0.user_query.drop 5)) }
    let ev : TraceEvent :=
      { type := strOf "tool_detected", name := some (strOf "unknown"),
        reason := some (strOf "汎用ツール接頭辞"), ts := env.now }
    if st1.debug then appendTrace st1 ev else st1
  else if env.llmConfigured then
    match env.classify with
    | .exc _ => { st0 with query_type := strOf "general" }
    | .reply text =>
        let c := pyLower (pyStrip text)
        let qt := if c = strOf "manufacturing" ∨ c = strOf "python" ∨
            c = strOf "general" then c else strOf "general"
        finishClassified env st0 qt (strOf "LLM分類結果")
  else
    let ql := pyLower st0.user_query
    let qt :=
      if pyContains ql (strOf "改善") ∨ pyContains ql (strOf "品質") ∨
          pyContains ql (strOf "製造") ∨ pyContains ql (strOf "効率") ∨
          pyContains ql (strOf "生産") then strOf "manufacturing"
      else if pyContains ql (strOf "python") ∨
          pyContains ql (strOf "プログラム") ∨
          pyContains ql (strOf "コード") ∨
          pyContains ql (strOf "スクリプト") then strOf "python"
      else if truthyOpt (detect_tool_request st0.user_query).1 then
        strOf "tool"
      else strOf "general"
    finishClassified env st0 qt (strOf "キーワード検出")

/-- The four branch nodes of the compiled graph. -/
inductive Branch where
  | manufacturing | python | general | tool
deriving Repr, DecidableEq

/-- `_route_query` composed with the conditional-edge path map of
`_build_workflow`: the router returns `state['query_type']` verbatim and the
map has exactly these four entries and no default, so a value outside the
map makes the graph invocation raise — modelled as `none`. -/
def routeMap (qt : Str) : Option Branch :=
  if qt = strOf "manufacturing" then some .manufacturing
  else if qt = strOf "python" then some .python
  else if qt = strOf "general" then some .general
  else if qt = strOf "tool" then some .tool
  else none

def agentNotRegisteredMsg : Str := strOf "エージェントが登録されていません。"

/-- Common body of `_process_manufacturing_query`, `_process_python_query`
and `_generate_general_response` (they differ only in the registry key).
An exception from the awaited agent call is caught by the node and stored in
`state['error']` before the message log is written. -/
def processCategoryNode (env : Env) (key : Str) (st : WorkflowState) :
    WorkflowState :=
  if ¬ env.registered key then
    let st1 :=
      { st with
          error := some (strOf "agent_not_registered"),
          response := agentNotRegisteredMsg }
    { st1 with messages := st1.messages ++
        [(strOf "user", st1.user_query), (strOf "assistant", st1.response)] }
  else
    match env.agent key with
    | .exc msg => { st with error := some msg }
    | .ok content =>
        let st1 := { st with response := content }
        { st1 with messages := st1.messages ++
            [(strOf "user", st1.user_query),
             (strOf "assistant", st1.response)] }

/-- `f"{n}"` / `f"{None}"` for the optional `took_ms`. -/
def optIntRepr (o : Option Int) : Str :=
  match o with
  | some n => strOf (toString n)
  | none => strOf "None"

def toolNotRecognizedMsg : Str :=
  strOf "ツール実行リクエストを認識できませんでした。"

/-- `LangGraphService._process_tool_query`.  Nothing in its body can raise
(`async_execute_tool` and `_append_trace` swallow their exceptions), so the
node's own `except` is dead. -/
def processToolNode (env : Env) (st : WorkflowState) : WorkflowState :=
  let p : Option Str × Str :=
    if truthyOpt st.tool_name then
      (st.tool_name,
        if truthyOpt st.tool_input then st.tool_input.getD []
        else st.user_query)
    else
      let d := detect_tool_request st.user_query
      (d.1, d.2.getD [])
  if truthyOpt p.1 then
    let tr := async_execute_tool p.1 p.2 5 env.toolExec env.toolTook
    let st1 :=
      if st.debug then
        let short :=
          if p.2.length > 120 then p.2.take 120 ++ strOf "..." else p.2
        let ev : TraceEvent :=
          { type := strOf "tool_invoked", name := some tr.tool,
            tool_input := some short, took_ms := tr.took_ms,
            error := tr.error, ts := env.now }
        appendTrace st ev
      else st
    let resp :=
      if truthyOpt tr.error then
        strOf "[tool:" ++ tr.tool ++ strOf "] エラー: " ++ tr.error.getD [] ++
          strOf " (took " ++ optIntRepr tr.took_ms ++ strOf "ms)"
      else
        let took :=
          match tr.took_ms with
          | some n => strOf " (took " ++ strOf (toString n) ++ strOf "ms)"
          | none => []
        strOf "[tool:" ++ tr.tool ++ strOf "] 実行結果" ++ took ++
          strOf ":\n" ++ tr.output
    let st2 := { st1 with response := resp }
    { st2 with messages := st2.messages ++
        [(strOf "user", st2.user_query), (strOf "assistant", st2.response)] }
  else
    let st1 := { st with response := toolNotRecognizedMsg }
    { st1 with messages := st1.messages ++
        [(strOf "user", st1.user_query), (strOf "assistant", st1.response)] }

/-- Dispatch of a routed branch to its node. -/
def runBranch (env : Env) : Branch → WorkflowState → WorkflowState
  | .manufacturing => processCategoryNode env (strOf "manufacturing")
  | .python => processCategoryNode env (strOf "python")
  | .general => processCategoryNode env (strOf "general")
  | .tool => processToolNode env

/-- One `ainvoke` of the compiled graph: analyze, route, run the branch
node, terminate.  `Except.error` is the invocation raising (unroutable
`query_type`). -/
def runWorkflow (env : Env) (st0 : WorkflowState) : Except Str WorkflowState :=
  let st1 := analyzeQuery env st0
  match routeMap st1.query_type with
  | none => .error st1.query_type
  | some b => .ok (runBranch env b st1)

end AIconsal

namespace AIconsal

/-! ### `_build_debug_info`, `process_query`, `get_last_debug_info` -/

/-- The dict built by `_build_debug_info` (the spec's `DebugSummary`). -/
structure DebugInfo where
  display_header : Str
  selected_agent : Option Str
  selected_tool : Option Str
  decision_trace : List TraceEvent
  thread_id : Option Str
deriving Repr, DecidableEq

/-- `ev['type'] in ("agent_selected", "tool_detected", "tool_invoked")`. -/
def relevantTraceType (t : Str) : Bool :=
  t = strOf "agent_selected" ∨ t = strOf "tool_detected" ∨
    t = strOf "tool_invoked"

/-- The `for ev in reversed(trace)` reason scan of `_build_debug_info`
(argument already reversed).  `reason` starts as `None`, is replaced by a
truthy `ev.get('reason')`, and a `tool_invoked` event with no reason text
yields the fixed "ツール実行" reason; the loop breaks at the first relevant
event. -/
def scanReason : List TraceEvent → Option Str
  | [] => none
  | ev :: rest =>
    if relevantTraceType ev.type then
      let reason := if truthyOpt ev.reason then ev.reason else none
      if ev.type = strOf "tool_invoked" ∧ ¬ truthyOpt reason then
        some (strOf "ツール実行")
      else reason
    else scanReason rest

/-- `x or default` over an optional string field. -/
def orDefault (o : Option Str) (d : Str) : Str :=
  if truthyOpt o then o.getD [] else d

/-- `agent_map.get(qt) if qt in (...) else None`. -/
def selectedAgentFor (qt : Str) : Option Str :=
  if qt = strOf "manufacturing" then some (strOf "manufacturing_advisor")
  else if qt = strOf "python" then some (strOf "python_mentor")
  else if qt = strOf "general" then some (strOf "general_responder")
  else none

/-- `LangGraphService._build_debug_info(state)`. -/
def buildDebugInfo (st : WorkflowState) : DebugInfo :=
  let selected_agent := selectedAgentFor st.query_type
  let selected_tool :=
    if st.query_type = strOf "tool" then st.tool_name else none
  let trace := st.decision_trace
  let reason := scanReason trace.reverse
  let header :=
    strOf "Agent: " ++ orDefault selected_agent (strOf "none") ++
    strOf " / Tool: " ++ orDefault selected_tool (strOf "none") ++
    strOf " / 根拠: " ++ orDefault reason (strOf "—")
  { display_header := header, selected_agent := selected_agent,
    selected_tool := selected_tool, decision_trace := trace,
    thread_id := st.thread_id }

/-- Whether `asyncio.wait_for` around the graph invocation timed out
(wall-clock behaviour, external to the embedded logic). -/
inductive DriverOutcome where
  | timeout
  | completes
deriving Repr, DecidableEq

def workflowTimeoutMsg : Str :=
  strOf "処理がタイムアウトしました。時間をおいて再度お試しください。"

def processingErrorMsg : Str :=
  strOf "申し訳ございません。処理中にエラーが発生しました。"

def emptyResponseFallbackMsg : Str := strOf "回答を生成できませんでした。"

def systemErrorMsg : Str :=
  strOf "システムエラーが発生しました。しばらく時間をおいてお試しください。"

/-- The fresh `initial_state` dict built by `process_query`. -/
def initialState (query context file_context : Str) (thread_id : Option Str)
    (debug : Bool) : WorkflowState :=
  { user_query := query, conversation_history := context,
    file_context := file_context, query_type := [], response := [],
    error := none, thread_id := thread_id, debug := debug,
    decision_trace := [] }

/-- `LangGraphService.process_query`.

Returns the response text together with the value of the engine's
`_last_debug_info` slot after the call; `lastDebugInfo` is the slot's value
before the call (`get_last_debug_info` returns the slot).  Every path
returns instead of raising: the overall-timeout path and the path in which
the graph invocation raises return fixed messages before the slot is
touched, the `result.get("error")` check returns a fixed message, and the
normal path normalizes the branch-produced response. -/
def process_query (env : Env) (drv : DriverOutcome)
    (query context file_context : Str) (thread_id : Option Str)
    (debug : Bool) (lastDebugInfo : Option DebugInfo) :
    Str × Option DebugInfo :=
  match drv with
  | .timeout => (workflowTimeoutMsg, lastDebugInfo)
  | .completes =>
    match runWorkflow env
        (initialState query context file_context thread_id debug) with
    | .error _ => (systemErrorMsg, lastDebugInfo)
    | .ok result =>
      if truthyOpt result.error then (processingErrorMsg, lastDebugInfo)
      else
        let newInfo := if debug then some (buildDebugInfo result) else none
        let response_text := pyStrip result.response
        if response_text = [] then (emptyResponseFallbackMsg, newInfo)
        else (response_text, newInfo)

end AIconsal

namespace AIconsal

/-- The key set of `_REGISTRY_V2` in `agents/registry.py`. -/
def realRegistered (k : Str) : Bool :=
  k = strOf "general" || k = strOf "python" || k = strOf "manufacturing"

/-- A convenience environment for concrete evaluations. -/
def envNoLLM : Env :=
  { llmConfigured := false, classify := .reply [], registered := realRegistered,
    agent := fun _ => .ok (strOf "hello"), toolExec := .ok, toolTook := 7,
    now := 1 }

def envLLMFail : Env :=
  { envNoLLM with llmConfigured := true, classify := .exc (strOf "boom") }

end AIconsal

namespace AIconsal

/-! ### Helper definitions for the verification -/

/-- The debug-independent part of a `WorkflowState`: everything except the
`debug` flag and the `decision_trace`. -/
structure CoreView where
  user_query : Str
  conversation_history : Str
  file_context : Str
  query_type : Str
  response : Str
  error : Option Str
  thread_id : Option Str
  tool_name : Option Str
  tool_input : Option Str
  messages : List (Str × Str)
deriving Repr, DecidableEq

/-- Project a state onto its debug-independent part. -/
def WorkflowState.core (st : WorkflowState) : CoreView :=
  ⟨st.user_query, st.conversation_history, st.file_context, st.query_type,
   st.response, st.error, st.thread_id, st.tool_name, st.tool_input,
   st.messages⟩

/-- A stand-in summary left over from an earlier run. -/
def dummyDebugInfo : DebugInfo :=
  { display_header := strOf "x", selected_agent := none,
    selected_tool := none, decision_trace := [], thread_id := none }

/-- An environment with the registry entry for `python` removed, as the
spec's missing-registration scenario prescribes. -/
def envNoPython : Env :=
  { envNoLLM with
      registered := fun k => !(k = strOf "python") && realRegistered k }

/-- The recognized prefixes (lowercased form, canonical tool name). -/
def toolPrefixTable : List (Str × Str) :=
  [(strOf "sql:", strOf "sql"), (strOf "web:", strOf "web"),
   (strOf "search:", strOf "web"), (strOf "tool:sql:", strOf "sql"),
   (strOf "tool:web:", strOf "web"), (strOf "tool:search:", strOf "web")]

/-- Whether a primary attempt outcome is a rate-limit-class exception (the
only outcome after which the loop sleeps and retries). -/
def isRateLimitAttempt : GenAttempt → Bool
  | .exc b m => is_rate_limit_error (.excErr b m)
  | _ => false

end AIconsal

namespace AIconsal

/-! ### Small preservation lemmas -/

theorem appendTrace_core (st : WorkflowState) (ev : TraceEvent) :
    (appendTrace st ev).core = st.core := by
  unfold appendTrace
  split <;> rfl

theorem appendTrace_query_type (st : WorkflowState) (ev : TraceEvent) :
    (appendTrace st ev).query_type = st.query_type := by
  unfold appendTrace
  split <;> rfl

theorem appendTrace_trace (st : WorkflowState) (ev : TraceEvent) :
    (appendTrace st ev).decision_trace = st.decision_trace ++
      (if st.debug then [ev] else []) := by
  unfold appendTrace
  split <;> simp

end AIconsal

namespace AIconsal

/-- C1: `process_query` (the spec's `run`) is a total function into strings
— the overall-timeout, workflow-error and unexpected-exception paths all
return fixed messages instead of raising — and the returned response text is
never the empty string: the branch-produced text is trimmed and an empty or
whitespace-only result is replaced by the fixed "could not generate a
response" string. -/
theorem process_query_response_nonempty (env : Env) (drv : DriverOutcome)
    (q c f : Str) (tid : Option Str) (debug : Bool)
    (last : Option DebugInfo) :
    (process_query env drv q c f tid debug last).1 ≠ [] := by
  unfold process_query
  cases drv with
  | timeout => simp [workflowTimeoutMsg, strOf]
  | completes =>
    cases hr : runWorkflow env (initialState q c f tid debug) with
    | error e => simp [systemErrorMsg, strOf]
    | ok result =>
      by_cases he : truthyOpt result.error
      · simp [he, processingErrorMsg, strOf]
      · by_cases hresp : pyStrip result.response = []
        · simp [he, hresp, emptyResponseFallbackMsg, strOf]
        · simp [he, hresp]

end AIconsal

namespace AIconsal

/-- C3 (counterexample): `async_execute_tool` with a missing tool name
returns `error = "unknown_tool"` together with a NON-empty output (the fixed
guidance string), so a non-null error does coexist with a non-empty output,
contradicting the claimed invariant. -/
theorem async_execute_tool_invariant_counterexample :
    (async_execute_tool none (strOf "x") 5 .ok 0).error ≠ none ∧
    (async_execute_tool none (strOf "x") 5 .ok 0).output ≠ [] := by decide

/-- C3 (amended): every `ToolResult` returned by `async_execute_tool`
either has `error = none` with a non-empty output (success of a builtin
runner), or has a non-null `error`; in the error case the output is empty
except on the `unknown_tool` / `unsupported_tool` fast paths, whose output
is the fixed (non-empty) guidance text.  `took_ms` is populated on every
path. -/
theorem async_execute_tool_invariant (tool : Option Str) (arg : Str)
    (t : ℚ) (oc : ExecOutcome) (took : Int) :
    (((async_execute_tool tool arg t oc took).error = none ∧
        (async_execute_tool tool arg t oc took).output ≠ []) ∨
      ((async_execute_tool tool arg t oc took).error ≠ none ∧
        ((async_execute_tool tool arg t oc took).output = [] ∨
          (async_execute_tool tool arg t oc took).error =
            some (strOf "unknown_tool") ∨
          (async_execute_tool tool arg t oc took).error =
            some (strOf "unsupported_tool")))) ∧
    (async_execute_tool tool arg t oc took).took_ms = some took := by
  unfold async_execute_tool
  by_cases h0 : pyLower (tool.getD []) = []
  · simp [h0]
  · simp only [h0, if_false]
    rcases hrun : TOOL_RUNNERS (pyLower (tool.getD [])) with _ | runner
    · simp
    · have hr : runner = sql.run ∨ runner = web.run := by
        unfold TOOL_RUNNERS at hrun
        split at hrun
        · exact Or.inl (Option.some_injective _ hrun).symm
        · split at hrun
          · exact Or.inr (Option.some_injective _ hrun).symm
          · exact absurd hrun (by simp)
      cases oc with
      | ok =>
          refine ⟨Or.inl ⟨rfl, ?_⟩, rfl⟩
          rcases hr with h | h <;> subst h <;> simp [sql.run, web.run, strOf]
      | timeout => simp
      | exc msg => simp

end AIconsal

namespace AIconsal

/-- C4 (counterexample): with the `python` entry removed from the v2
registry, a query routed to the python branch makes `process_query` return
the fixed generic processing-error message, NOT the "agent not registered"
message the claim asserts (the `result.get("error")` short-circuit runs
before the state's response is surfaced). -/
theorem agent_not_registered_run_counterexample :
    (process_query envNoPython .completes (strOf "pythonのコードを書いて")
        [] [] none false none).1 = processingErrorMsg ∧
    (process_query envNoPython .completes (strOf "pythonのコードを書いて")
        [] [] none false none).1 ≠ agentNotRegisteredMsg := by decide

/-- C4 (amended): with `python` missing from the v2 registry, the python
node stores `error = "agent_not_registered"` and the fixed "agent not
registered" message in the state's `response`, but `process_query` itself
returns the fixed generic processing-error message because the error check
precedes response normalization. -/
theorem agent_not_registered_flow (env : Env) (q c f : Str)
    (tid : Option Str) (debug : Bool) (last : Option DebugInfo)
    (hreg : env.registered (strOf "python") = false)
    (hqt : (analyzeQuery env (initialState q c f tid debug)).query_type =
      strOf "python") :
    (runBranch env .python
        (analyzeQuery env (initialState q c f tid debug))).error =
      some (strOf "agent_not_registered") ∧
    (runBranch env .python
        (analyzeQuery env (initialState q c f tid debug))).response =
      agentNotRegisteredMsg ∧
    (process_query env .completes q c f tid debug last).1 =
      processingErrorMsg := by
  have hbranch :
      runBranch env .python (analyzeQuery env (initialState q c f tid debug))
        = processCategoryNode env (strOf "python")
            (analyzeQuery env (initialState q c f tid debug)) := rfl
  have hnode : ∀ st : WorkflowState,
      (processCategoryNode env (strOf "python") st).error =
        some (strOf "agent_not_registered") ∧
      (processCategoryNode env (strOf "python") st).response =
        agentNotRegisteredMsg := by
    intro st
    unfold processCategoryNode
    simp [hreg]
  have hroute : routeMap
      (analyzeQuery env (initialState q c f tid debug)).query_type =
        some Branch.python := by rw [hqt]; rfl
  have hrw : runWorkflow env (initialState q c f tid debug) =
      Except.ok (runBranch env Branch.python
        (analyzeQuery env (initialState q c f tid debug))) := by
    show (match routeMap
        (analyzeQuery env (initialState q c f tid debug)).query_type with
      | none => Except.error
          (analyzeQuery env (initialState q c f tid debug)).query_type
      | some b => Except.ok
          (runBranch env b (analyzeQuery env (initialState q c f tid debug))))
      = _
    rw [hroute]
  refine ⟨(hbranch ▸ hnode _).1, (hbranch ▸ hnode _).2, ?_⟩
  have herr := (hnode (analyzeQuery env (initialState q c f tid debug))).1
  unfold process_query
  simp only [hrw, hbranch]
  rw [herr]
  simp [truthyOpt, strOf]

/-- C4 (witness): the amended statement holds at the spec's concrete
scenario (no LLM configured, `python` keyword query, registry without
`python`). -/
theorem agent_not_registered_flow_witness :
    (process_query envNoPython .completes (strOf "pythonのコードを書いて")
        [] [] none false none).1 = processingErrorMsg :=
  (agent_not_registered_flow envNoPython (strOf "pythonのコードを書いて")
    [] [] none false none (by decide) (by decide)).2.2

end AIconsal

namespace AIconsal

/-- Whatever the oracles do, `_analyze_query` always stores one of the four
routable categories in `query_type`. -/
theorem analyzeQuery_query_type_mem (env : Env) (st : WorkflowState) :
    (analyzeQuery env st).query_type ∈
      [strOf "manufacturing", strOf "python", strOf "general",
       strOf "tool"] := by
  unfold analyzeQuery finishClassified
  cases hc : env.classify with
  | reply text =>
      simp only [hc]
      split_ifs <;> simp_all [appendTrace_query_type, strOf] <;> tauto
  | exc m =>
      simp only [hc]
      split_ifs <;> simp_all [appendTrace_query_type, strOf]

end AIconsal

namespace AIconsal

/-- C5 (counterexample): an unrecognized `query_type` — here the empty
string — has NO entry in the conditional-edge path map, so the graph
invocation fails instead of routing to the general branch. -/
theorem route_unrecognized_counterexample :
    routeMap [] = none ∧ routeMap [] ≠ some Branch.general := by decide

/-- C5 (amended): route selection is the pure lookup `routeMap` applied to
`query_type`, and a `query_type` outside the four routable categories has no
route at all (the invocation raises, surfaced by `process_query` as the
fixed system-error message) rather than defaulting to `general`; such values
are unreachable, since `_analyze_query` always stores one of the four. -/
theorem route_unrecognized_fails (qt : Str) (env : Env) (st : WorkflowState)
    (h : ¬ (qt = strOf "manufacturing" ∨ qt = strOf "python" ∨
      qt = strOf "general" ∨ qt = strOf "tool")) :
    routeMap qt = none ∧
    (analyzeQuery env st).query_type ∈
      [strOf "manufacturing", strOf "python", strOf "general",
       strOf "tool"] := by
  push_neg at h
  refine ⟨?_, analyzeQuery_query_type_mem env st⟩
  unfold routeMap
  simp [h.1, h.2.1, h.2.2.1, h.2.2.2]

/-- C5 (witness): the amended statement at the empty `query_type` and a
concrete state. -/
theorem route_unrecognized_fails_witness :
    routeMap [] = none ∧
    (analyzeQuery envNoLLM
        (initialState (strOf "hi") [] [] none false)).query_type ∈
      [strOf "manufacturing", strOf "python", strOf "general",
       strOf "tool"] :=
  route_unrecognized_fails [] envNoLLM
    (initialState (strOf "hi") [] [] none false) (by decide)

end AIconsal

namespace AIconsal

/-- The three category nodes never touch the decision trace. -/
theorem processCategoryNode_trace (env : Env) (key : Str)
    (st : WorkflowState) :
    (processCategoryNode env key st).decision_trace = st.decision_trace := by
  unfold processCategoryNode
  split
  · rfl
  · cases env.agent key <;> rfl

/-- The tool node only ever appends to the decision trace. -/
theorem processToolNode_trace (env : Env) (st : WorkflowState) :
    ∃ t, (processToolNode env st).decision_trace =
      st.decision_trace ++ t := by
  simp only [processToolNode]
  split_ifs <;>
    first
      | exact ⟨_, by rw [appendTrace_trace]⟩
      | exact ⟨[], by simp⟩

/-- Branch nodes only ever append to the decision trace. -/
theorem runBranch_trace_mono (env : Env) (b : Branch) (st : WorkflowState) :
    ∃ t, (runBranch env b st).decision_trace = st.decision_trace ++ t := by
  cases b
  case tool => exact processToolNode_trace env st
  all_goals exact ⟨[], by simp [runBranch, processCategoryNode_trace]⟩

/-- When tracing is on and the classification call does not raise,
`_analyze_query` appends a `tool_detected` or `agent_selected` event. -/
theorem analyzeQuery_trace_event (env : Env) (st : WorkflowState)
    (hdbg : st.debug = true)
    (hexc : env.llmConfigured = true → ∀ m, env.classify ≠ .exc m) :
    ∃ ev ∈ (analyzeQuery env st).decision_trace,
      ev.type = strOf "tool_detected" ∨ ev.type = strOf "agent_selected" := by
  have hmem : ∀ (l : List TraceEvent) (ev : TraceEvent), ev ∈ l ++ [ev] := by
    intro l ev; simp
  unfold analyzeQuery finishClassified
  by_cases h1 : truthyOpt (detect_tool_request st.user_query).1 = true
  · rw [if_pos h1]
    simp only [hdbg, appendTrace, if_true]
    exact ⟨_, hmem _ _, Or.inl rfl⟩
  · rw [if_neg h1]
    by_cases h2 : List.isPrefixOf (strOf "tool:")
        (pyLower (pyStrip st.user_query)) = true
    · rw [if_pos h2]
      simp only [hdbg, appendTrace, if_true]
      exact ⟨_, hmem _ _, Or.inl rfl⟩
    · rw [if_neg h2]
      by_cases h3 : env.llmConfigured = true
      · rw [if_pos h3]
        cases hc : env.classify with
        | exc m => exact absurd hc (hexc h3 m)
        | reply text =>
            simp only [hc]
            by_cases h4 : pyLower (pyStrip text) = strOf "manufacturing" ∨
                pyLower (pyStrip text) = strOf "python" ∨
                pyLower (pyStrip text) = strOf "general"
            · rw [if_pos h4, if_pos ⟨hdbg, h4⟩, appendTrace_trace]
              simp only [hdbg, if_true]
              exact ⟨_, hmem _ _, Or.inr rfl⟩
            · rw [if_neg h4, if_pos ⟨hdbg, Or.inr (Or.inr rfl)⟩,
                appendTrace_trace]
              simp only [hdbg, if_true]
              exact ⟨_, hmem _ _, Or.inr rfl⟩
      · rw [if_neg h3]
        simp only []
        by_cases h5 : pyContains (pyLower st.user_query) (strOf "改善") =
              true ∨
            pyContains (pyLower st.user_query) (strOf "品質") = true ∨
            pyContains (pyLower st.user_query) (strOf "製造") = true ∨
            pyContains (pyLower st.user_query) (strOf "効率") = true ∨
            pyContains (pyLower st.user_query) (strOf "生産") = true
        · rw [if_pos h5, if_pos ⟨hdbg, Or.inl rfl⟩, appendTrace_trace]
          simp only [hdbg, if_true]
          exact ⟨_, hmem _ _, Or.inr rfl⟩
        · rw [if_neg h5]
          by_cases h6 : pyContains (pyLower st.user_query) (strOf "python") =
                true ∨
              pyContains (pyLower st.user_query) (strOf "プログラム") = true ∨
              pyContains (pyLower st.user_query) (strOf "コード") = true ∨
              pyContains (pyLower st.user_query) (strOf "スクリプト") = true
          · rw [if_pos h6, if_pos ⟨hdbg, Or.inr (Or.inl rfl)⟩,
              appendTrace_trace]
            simp only [hdbg, if_true]
            exact ⟨_, hmem _ _, Or.inr rfl⟩
          · rw [if_neg h6, if_neg h1,
              if_pos ⟨hdbg, Or.inr (Or.inr rfl)⟩, appendTrace_trace]
            simp only [hdbg, if_true]
            exact ⟨_, hmem _ _, Or.inr rfl⟩

end AIconsal

namespace AIconsal

/-- C8 (counterexample): a `debug = true` run in which the classification
call raised (`classify = exc`) completes — the handler silently defaults
`query_type` to `general` and the general agent answers — yet its final
`decision_trace` is EMPTY, so it contains no `agent_selected` or
`tool_detected` event. -/
theorem debug_trace_empty_counterexample :
    (runWorkflow envLLMFail
        (initialState (strOf "こんにちは") [] [] none true)).toOption.map
      WorkflowState.decision_trace = some [] := by decide

/-- C8 (amended): for every completed `debug = true` run in which the LLM
classification call did NOT raise, the final `decision_trace` contains an
`agent_selected` or `tool_detected` event; in the exception-default path the
trace can stay empty. -/
theorem debug_trace_has_selection_event (env : Env) (q c f : Str)
    (tid : Option Str) (final : WorkflowState)
    (hexc : env.llmConfigured = true → ∀ m, env.classify ≠ .exc m)
    (hrun : runWorkflow env (initialState q c f tid true) = .ok final) :
    final.decision_trace.any (fun ev =>
      ev.type == strOf "tool_detected" ||
      ev.type == strOf "agent_selected") = true := by
  unfold runWorkflow at hrun
  simp only [] at hrun
  rcases hroute : routeMap
      (analyzeQuery env (initialState q c f tid true)).query_type with _ | b
  · rw [hroute] at hrun
    exact absurd hrun (by simp)
  · rw [hroute] at hrun
    have hfinal : final =
        runBranch env b (analyzeQuery env (initialState q c f tid true)) := by
      simpa using hrun.symm
    obtain ⟨ev, hev, hty⟩ := analyzeQuery_trace_event env
      (initialState q c f tid true) rfl hexc
    obtain ⟨t, ht⟩ := runBranch_trace_mono env b
      (analyzeQuery env (initialState q c f tid true))
    rw [hfinal, List.any_eq_true]
    refine ⟨ev, ?_, ?_⟩
    · rw [ht]
      exact List.mem_append_left _ hev
    · rcases hty with h | h <;> simp [h]

/-- C8 (witness): the amended statement at a concrete keyword-classified
debug run (no LLM configured, so the classification call cannot raise). -/
theorem debug_trace_has_selection_event_witness :
    ((runWorkflow envNoLLM
        (initialState (strOf "hi") [] [] none true)).toOption.getD
          (initialState [] [] [] none true)).decision_trace.any (fun ev =>
      ev.type == strOf "tool_detected" ||
      ev.type == strOf "agent_selected") = true :=
  debug_trace_has_selection_event envNoLLM (strOf "hi") [] [] none
    ((runWorkflow envNoLLM
        (initialState (strOf "hi") [] [] none true)).toOption.getD
          (initialState [] [] [] none true))
    (by intro h; simp [envNoLLM] at h) rfl

end AIconsal

namespace AIconsal

/-- C9 (counterexample): a timeout run does NOT overwrite the stored debug
summary — the previous run's summary is still observable through
`get_last_debug_info` afterwards, although the claim says every call
overwrites the slot before returning. -/
theorem last_debug_info_stale_counterexample :
    (process_query envNoLLM .timeout (strOf "hi") [] [] none false
        (some dummyDebugInfo)).2 = some dummyDebugInfo ∧
    (process_query envNoLLM .timeout (strOf "hi") [] [] none false
        (some dummyDebugInfo)).2 ≠ none := by decide

/-- C9 (amended): only a run that completes and passes the
`result.get("error")` check overwrites the engine's `_last_debug_info` slot
(with the newly built summary when `debug = true`, with `None` otherwise);
the overall-timeout, graph-exception and workflow-error return paths leave
the previously stored summary untouched. -/
theorem last_debug_info_update (env : Env) (q c f : Str) (tid : Option Str)
    (debug : Bool) (prev : Option DebugInfo) :
    (process_query env .timeout q c f tid debug prev).2 = prev ∧
    (∀ e, runWorkflow env (initialState q c f tid debug) = .error e →
      (process_query env .completes q c f tid debug prev).2 = prev) ∧
    (∀ final, runWorkflow env (initialState q c f tid debug) = .ok final →
      truthyOpt final.error = true →
      (process_query env .completes q c f tid debug prev).2 = prev) ∧
    (∀ final, runWorkflow env (initialState q c f tid debug) = .ok final →
      truthyOpt final.error = false →
      (process_query env .completes q c f tid debug prev).2 =
        (if debug then some (buildDebugInfo final) else none)) := by
  refine ⟨rfl, ?_, ?_, ?_⟩
  · intro e he
    unfold process_query
    rw [he]
  · intro final hf herr
    unfold process_query
    rw [hf]
    simp [herr]
  · intro final hf herr
    unfold process_query
    rw [hf]
    simp only [herr, Bool.false_eq_true, if_false]
    by_cases hresp : pyStrip final.response = [] <;> simp [hresp]

/-- C9 (witness): at a concrete completed keyword-classified debug run the
slot receives the newly built summary. -/
theorem last_debug_info_update_witness :
    (process_query envNoLLM .completes (strOf "hi") [] [] none true
        (some dummyDebugInfo)).2 =
      some (buildDebugInfo ((runWorkflow envNoLLM
        (initialState (strOf "hi") [] [] none true)).toOption.getD
          (initialState [] [] [] none false))) := by
  have h := (last_debug_info_update envNoLLM (strOf "hi") [] [] none true
    (some dummyDebugInfo)).2.2.2
      ((runWorkflow envNoLLM
        (initialState (strOf "hi") [] [] none true)).toOption.getD
          (initialState [] [] [] none false)) rfl (by decide)
  simpa using h

end AIconsal

namespace AIconsal

/-- `_analyze_query` computes the debug-independent part of its output from
the debug-independent part of its input: the `debug` flag and the incoming
trace influence only the trace. -/
theorem analyzeQuery_core_congr (env : Env) (st₁ st₂ : WorkflowState)
    (h : st₁.core = st₂.core) :
    (analyzeQuery env st₁).core = (analyzeQuery env st₂).core := by
  obtain ⟨uq, ch, fc, qt, resp, err, tid, tn, ti, ms, d₁, tr₁⟩ := st₁
  obtain ⟨uq₂, ch₂, fc₂, qt₂, resp₂, err₂, tid₂, tn₂, ti₂, ms₂, d₂, tr₂⟩ := st₂
  simp only [WorkflowState.core, CoreView.mk.injEq] at h
  obtain ⟨h1, h2, h3, h4, h5, h6, h7, h8, h9, h10⟩ := h
  subst h1 h2 h3 h4 h5 h6 h7 h8 h9 h10
  cases hc : env.classify with
  | reply text =>
      unfold analyzeQuery finishClassified
      simp only [hc]
      split_ifs <;> simp_all [WorkflowState.core, appendTrace]
  | exc m =>
      unfold analyzeQuery finishClassified
      simp only [hc]
      split_ifs <;> simp_all [WorkflowState.core, appendTrace]

/-- The category nodes compute the debug-independent part of their output
from the debug-independent part of their input. -/
theorem processCategoryNode_core_congr (env : Env) (key : Str)
    (st₁ st₂ : WorkflowState) (h : st₁.core = st₂.core) :
    (processCategoryNode env key st₁).core =
      (processCategoryNode env key st₂).core := by
  obtain ⟨uq, ch, fc, qt, resp, err, tid, tn, ti, ms, d₁, tr₁⟩ := st₁
  obtain ⟨uq₂, ch₂, fc₂, qt₂, resp₂, err₂, tid₂, tn₂, ti₂, ms₂, d₂, tr₂⟩ := st₂
  simp only [WorkflowState.core, CoreView.mk.injEq] at h
  obtain ⟨h1, h2, h3, h4, h5, h6, h7, h8, h9, h10⟩ := h
  subst h1 h2 h3 h4 h5 h6 h7 h8 h9 h10
  unfold processCategoryNode
  split_ifs <;> cases env.agent key <;> simp [WorkflowState.core]

/-- The tool node computes the debug-independent part of its output from
the debug-independent part of its input. -/
theorem processToolNode_core_congr (env : Env) (st₁ st₂ : WorkflowState)
    (h : st₁.core = st₂.core) :
    (processToolNode env st₁).core = (processToolNode env st₂).core := by
  obtain ⟨uq, ch, fc, qt, resp, err, tid, tn, ti, ms, d₁, tr₁⟩ := st₁
  obtain ⟨uq₂, ch₂, fc₂, qt₂, resp₂, err₂, tid₂, tn₂, ti₂, ms₂, d₂, tr₂⟩ := st₂
  simp only [WorkflowState.core, CoreView.mk.injEq] at h
  obtain ⟨h1, h2, h3, h4, h5, h6, h7, h8, h9, h10⟩ := h
  subst h1 h2 h3 h4 h5 h6 h7 h8 h9 h10
  unfold processToolNode
  split_ifs <;>
      (try simp_all [WorkflowState.core, appendTrace]) <;>
      (try split_ifs) <;>
    (try simp_all [WorkflowState.core, appendTrace])

/-- All branch nodes compute the debug-independent part of their output
from the debug-independent part of their input. -/
theorem runBranch_core_congr (env : Env) (b : Branch)
    (st₁ st₂ : WorkflowState) (h : st₁.core = st₂.core) :
    (runBranch env b st₁).core = (runBranch env b st₂).core := by
  cases b
  case tool => exact processToolNode_core_congr env st₁ st₂ h
  all_goals exact processCategoryNode_core_congr env _ st₁ st₂ h

end AIconsal

namespace AIconsal

/-- C10: for fixed query, contexts and oracle behaviour, the response text
returned by `process_query` is identical with `debug = true` and
`debug = false`: the flag only drives trace accumulation and the stored
debug summary, never the classification outcome, the dispatched branch or
the answer text. -/
theorem process_query_debug_noninterference (env : Env)
    (drv : DriverOutcome) (q c f : Str) (tid : Option Str)
    (prev₁ prev₂ : Option DebugInfo) :
    (process_query env drv q c f tid true prev₁).1 =
    (process_query env drv q c f tid false prev₂).1 := by
  cases drv with
  | timeout => rfl
  | completes =>
    have hinit : (initialState q c f tid true).core =
        (initialState q c f tid false).core := rfl
    have hA := analyzeQuery_core_congr env _ _ hinit
    have hqt : (analyzeQuery env (initialState q c f tid true)).query_type =
        (analyzeQuery env (initialState q c f tid false)).query_type :=
      congrArg CoreView.query_type hA
    unfold process_query runWorkflow
    simp only []
    rw [hqt]
    cases hroute : routeMap
        (analyzeQuery env (initialState q c f tid false)).query_type with
    | none => rfl
    | some b =>
      have hB := runBranch_core_congr env b _ _ hA
      have herr : (runBranch env b
            (analyzeQuery env (initialState q c f tid true))).error =
          (runBranch env b
            (analyzeQuery env (initialState q c f tid false))).error :=
        congrArg CoreView.error hB
      have hresp : (runBranch env b
            (analyzeQuery env (initialState q c f tid true))).response =
          (runBranch env b
            (analyzeQuery env (initialState q c f tid false))).response :=
        congrArg CoreView.response hB
      simp only [herr, hresp]
      split_ifs <;> rfl

end AIconsal

namespace AIconsal

/-! ### String lemmas for the tool-prefix claim -/

theorem pyStrip_nil : pyStrip [] = [] := rfl

theorem lowerChar_of_space {c : Char} (hc : pyIsSpace c = true) :
    lowerChar c = c := by
  simp only [pyIsSpace, Bool.or_eq_true, decide_eq_true_eq] at hc
  rcases hc with ((((h | h) | h) | h) | h) | h <;> subst h <;> rfl

theorem nonspace_of_lowerChar {c x : Char} (hx : pyIsSpace x = false)
    (h : lowerChar c = x) : pyIsSpace c = false := by
  by_cases hc : pyIsSpace c = true
  · rw [lowerChar_of_space hc] at h
    subst h
    exact absurd hc (by simp [hx])
  · simpa using hc

theorem stripL_cons_nonspace {c : Char} (t : Str)
    (hc : pyIsSpace c = false) : stripL (c :: t) = c :: t := by
  simp [stripL, List.dropWhile_cons, hc]

theorem stripR_cons_nonspace {c : Char} (t : Str)
    (hc : pyIsSpace c = false) : stripR (c :: t) = c :: stripR t := by
  unfold stripR
  rw [show (c :: t).reverse = t.reverse ++ [c] from by simp,
    List.dropWhile_append]
  split
  · rename_i hemp
    simp only [List.isEmpty_iff] at hemp
    simp [List.dropWhile_cons, hc, hemp]
  · rename_i hemp
    simp

theorem dropWhile_dropWhile (p : Char → Bool) (l : Str) :
    (l.dropWhile p).dropWhile p = l.dropWhile p := by
  induction l with
  | nil => rfl
  | cons c t ih =>
      by_cases hc : p c = true
      · simpa [List.dropWhile_cons, hc] using ih
      · simp [List.dropWhile_cons, hc]

theorem stripR_stripR (l : Str) : stripR (stripR l) = stripR l := by
  unfold stripR
  rw [List.reverse_reverse, dropWhile_dropWhile]

theorem stripR_nil_cases (c : Char) (t : Str) :
    stripR (c :: t) = if pyIsSpace c = true ∧ stripR t = [] then []
      else c :: stripR t := by
  by_cases hc : pyIsSpace c = true
  · unfold stripR
    rw [show (c :: t).reverse = t.reverse ++ [c] from by simp,
      List.dropWhile_append]
    split
    · rename_i hemp
      simp only [List.isEmpty_iff] at hemp
      simp [List.dropWhile_cons, hc, hemp]
    · rename_i hemp
      simp only [List.isEmpty_iff] at hemp
      have ht : ¬ stripR t = [] := by
        unfold stripR
        simpa using hemp
      rw [if_neg fun hand => ht hand.2]
      simp [stripR]
  · rw [stripR_cons_nonspace t (by simpa using hc)]
    simp [hc]

theorem stripL_stripR_comm (l : Str) :
    stripL (stripR l) = stripR (stripL l) := by
  induction l with
  | nil => rfl
  | cons c t ih =>
      by_cases hc : pyIsSpace c = true
      · have h1 : stripL (c :: t) = stripL t := by
          simp [stripL, List.dropWhile_cons, hc]
        rw [h1, ← ih, stripR_nil_cases]
        by_cases ht : stripR t = []
        · simp [hc, ht]
        · have : ¬ (pyIsSpace c = true ∧ stripR t = []) := by
            intro h
            exact ht h.2
          rw [if_neg this]
          simp [stripL, List.dropWhile_cons, hc]
      · have hcf : pyIsSpace c = false := by simpa using hc
        rw [stripL_cons_nonspace t hcf, stripR_cons_nonspace t hcf,
          stripL_cons_nonspace _ hcf]

theorem pyStrip_stripR (l : Str) : pyStrip (stripR l) = pyStrip l := by
  unfold pyStrip
  rw [stripL_stripR_comm, stripR_stripR]

end AIconsal

namespace AIconsal

theorem stripR_snoc_append (x : Str) (c : Char) (hc : pyIsSpace c = false)
    (b : Str) :
    stripR ((x ++ [c]) ++ b) = (x ++ [c]) ++ stripR b := by
  unfold stripR
  rw [show ((x ++ [c]) ++ b).reverse = b.reverse ++ (c :: x.reverse) from by
      simp,
    List.dropWhile_append]
  split
  · rename_i hemp
    simp only [List.isEmpty_iff] at hemp
    simp [List.dropWhile_cons, hc, hemp]
  · simp

theorem exists_cons_of_lower (x : Str) (ch : Char) (lit : Str)
    (h : pyLower x = ch :: lit) :
    ∃ c t, x = c :: t ∧ lowerChar c = ch ∧ pyLower t = lit := by
  cases x with
  | nil => simp [pyLower] at h
  | cons c t =>
      refine ⟨c, t, rfl, ?_, ?_⟩
      · simpa [pyLower] using congrArg (fun l => l.headI) h
      · have := congrArg List.tail h
        simpa [pyLower] using this

theorem exists_snoc_of_lower (x : Str) (lit : Str) (ch : Char)
    (h : pyLower x = lit ++ [ch]) :
    ∃ t c, x = t ++ [c] ∧ lowerChar c = ch := by
  have hrev : pyLower x.reverse = ch :: lit.reverse := by
    simp only [pyLower] at h ⊢
    rw [List.map_reverse, h]
    simp
  obtain ⟨c, t, hx, hcch, -⟩ := exists_cons_of_lower x.reverse ch lit.reverse
    hrev
  refine ⟨t.reverse, c, ?_, hcch⟩
  have := congrArg List.reverse hx
  simpa using this

end AIconsal

namespace AIconsal

/-- A query whose trimmed text lowercases to `sql:` followed by anything is
detected as the `sql` tool with the trimmed remainder as argument. -/
theorem detect_direct_sql (q p r : Str) (hsplit : pyStrip q = p ++ r)
    (hlow : pyLower p = strOf "sql:") :
    detect_tool_request q = (some (strOf "sql"), some (pyStrip r)) := by
  have hp4 : p.length = 4 := by
    have h := congrArg List.length hlow
    simpa [pyLower] using h
  have hq : ¬ q = [] := by
    intro h
    subst h
    rw [pyStrip_nil] at hsplit
    have hp : p = [] := (List.append_eq_nil.mp hsplit.symm).1
    rw [hp] at hp4
    simp at hp4
  have hlowapp : pyLower (p ++ r) = strOf "sql:" ++ pyLower r := by
    unfold pyLower at hlow ⊢
    rw [List.map_append, hlow]
  have hpre1 : ∀ z : Str,
      (strOf "tool:").isPrefixOf (strOf "sql:" ++ z) = false := by
    intro z
    show List.isPrefixOf ['t','o','o','l',':'] (['s','q','l',':'] ++ z) =
      false
    simp +decide [List.isPrefixOf]
  have hpre2 : ∀ z : Str,
      (strOf "sql:").isPrefixOf (strOf "sql:" ++ z) = true := by
    intro z
    show List.isPrefixOf ['s','q','l',':'] (['s','q','l',':'] ++ z) = true
    simp +decide [List.isPrefixOf]
  have hdrop : (p ++ r).drop 4 = r := by
    rw [← hp4, List.drop_left]
  unfold detect_tool_request
  rw [if_neg hq]
  simp only [hsplit, hlowapp, hpre1, hpre2, Bool.false_eq_true, if_false,
    if_true, hdrop]

end AIconsal

namespace AIconsal

/-- A query whose trimmed text lowercases to `web:` followed by anything is
detected as the `web` tool with the trimmed remainder as argument. -/
theorem detect_direct_web (q p r : Str) (hsplit : pyStrip q = p ++ r)
    (hlow : pyLower p = strOf "web:") :
    detect_tool_request q = (some (strOf "web"), some (pyStrip r)) := by
  have hp4 : p.length = 4 := by
    have h := congrArg List.length hlow
    simpa [pyLower] using h
  have hq : ¬ q = [] := by
    intro h
    subst h
    rw [pyStrip_nil] at hsplit
    have hp : p = [] := (List.append_eq_nil.mp hsplit.symm).1
    rw [hp] at hp4
    simp at hp4
  have hlowapp : pyLower (p ++ r) = strOf "web:" ++ pyLower r := by
    unfold pyLower at hlow ⊢
    rw [List.map_append, hlow]
  have hpre1 : ∀ z : Str,
      (strOf "tool:").isPrefixOf (strOf "web:" ++ z) = false := by
    intro z
    show List.isPrefixOf ['t','o','o','l',':'] (['w','e','b',':'] ++ z) =
      false
    simp +decide [List.isPrefixOf]
  have hpre2 : ∀ z : Str,
      (strOf "sql:").isPrefixOf (strOf "web:" ++ z) = false := by
    intro z
    show List.isPrefixOf ['s','q','l',':'] (['w','e','b',':'] ++ z) = false
    simp +decide [List.isPrefixOf]
  have hpre3 : ∀ z : Str,
      (strOf "web:").isPrefixOf (strOf "web:" ++ z) = true := by
    intro z
    show List.isPrefixOf ['w','e','b',':'] (['w','e','b',':'] ++ z) = true
    simp +decide [List.isPrefixOf]
  have hdrop : (p ++ r).drop 4 = r := by
    rw [← hp4, List.drop_left]
  unfold detect_tool_request
  rw [if_neg hq]
  simp only [hsplit, hlowapp, hpre1, hpre2, hpre3, Bool.false_eq_true,
    if_false, if_true, hdrop]

/-- A query whose trimmed text lowercases to `search:` followed by anything
is detected as the `web` tool (alias) with the trimmed remainder as
argument. -/
theorem detect_direct_search (q p r : Str) (hsplit : pyStrip q = p ++ r)
    (hlow : pyLower p = strOf "search:") :
    detect_tool_request q = (some (strOf "web"), some (pyStrip r)) := by
  have hp7 : p.length = 7 := by
    have h := congrArg List.length hlow
    simpa [pyLower] using h
  have hq : ¬ q = [] := by
    intro h
    subst h
    rw [pyStrip_nil] at hsplit
    have hp : p = [] := (List.append_eq_nil.mp hsplit.symm).1
    rw [hp] at hp7
    simp at hp7
  have hlowapp : pyLower (p ++ r) = strOf "search:" ++ pyLower r := by
    unfold pyLower at hlow ⊢
    rw [List.map_append, hlow]
  have hpre1 : ∀ z : Str,
      (strOf "tool:").isPrefixOf (strOf "search:" ++ z) = false := by
    intro z
    show List.isPrefixOf ['t','o','o','l',':']
      (['s','e','a','r','c','h',':'] ++ z) = false
    simp +decide [List.isPrefixOf]
  have hpre2 : ∀ z : Str,
      (strOf "sql:").isPrefixOf (strOf "search:" ++ z) = false := by
    intro z
    show List.isPrefixOf ['s','q','l',':']
      (['s','e','a','r','c','h',':'] ++ z) = false
    simp +decide [List.isPrefixOf]
  have hpre3 : ∀ z : Str,
      (strOf "web:").isPrefixOf (strOf "search:" ++ z) = false := by
    intro z
    show List.isPrefixOf ['w','e','b',':']
      (['s','e','a','r','c','h',':'] ++ z) = false
    simp +decide [List.isPrefixOf]
  have hpre4 : ∀ z : Str,
      (strOf "search:").isPrefixOf (strOf "search:" ++ z) = true := by
    intro z
    show List.isPrefixOf ['s','e','a','r','c','h',':']
      (['s','e','a','r','c','h',':'] ++ z) = true
    simp +decide [List.isPrefixOf]
  have hdrop : (p ++ r).drop 7 = r := by
    rw [← hp7, List.drop_left]
  unfold detect_tool_request
  rw [if_neg hq]
  simp only [hsplit, hlowapp, hpre1, hpre2, hpre3, hpre4, Bool.false_eq_true,
    if_false, if_true, hdrop]

end AIconsal

namespace AIconsal

/-- A query whose trimmed text lowercases to `tool:sql:` followed by
anything is detected as the `sql` tool with the trimmed remainder as
argument. -/
theorem detect_generic_sql (q p r : Str) (hsplit : pyStrip q = p ++ r)
    (hlow : pyLower p = strOf "tool:sql:") :
    detect_tool_request q = (some (strOf "sql"), some (pyStrip r)) := by
  have hp9 : p.length = 9 := by
    have h := congrArg List.length hlow
    simpa [pyLower] using h
  have hq : ¬ q = [] := by
    intro h
    subst h
    rw [pyStrip_nil] at hsplit
    have hp : p = [] := (List.append_eq_nil.mp hsplit.symm).1
    rw [hp] at hp9
    simp at hp9
  have hlowapp : pyLower (p ++ r) = strOf "tool:sql:" ++ pyLower r := by
    unfold pyLower at hlow ⊢
    rw [List.map_append, hlow]
  have hpre1 : ∀ z : Str,
      (strOf "tool:").isPrefixOf (strOf "tool:sql:" ++ z) = true := by
    intro z
    show List.isPrefixOf ['t','o','o','l',':']
      (['t','o','o','l',':','s','q','l',':'] ++ z) = true
    simp +decide [List.isPrefixOf]
  have hlow5 : pyLower (p.drop 5) = strOf "sql:" := by
    have h := congrArg (fun l => List.drop 5 l) hlow
    simp only at h
    unfold pyLower
    rw [List.map_drop]
    unfold pyLower at h
    rw [h]
    decide
  have hlen5 : (p.drop 5).length = 4 := by
    have h := congrArg List.length hlow5
    simpa [pyLower] using h
  have hdrop5 : (p ++ r).drop 5 = p.drop 5 ++ r := by
    rw [List.drop_append_eq_append_drop, hp9]
    simp
  obtain ⟨c1, t1, hp5cons, hc1, -⟩ :=
    exists_cons_of_lower (p.drop 5) 's' (strOf "ql:")
      (by rw [hlow5]; decide)
  obtain ⟨t2, c2, hp5snoc, hc2⟩ :=
    exists_snoc_of_lower (p.drop 5) (strOf "sql") ':'
      (by rw [hlow5]; decide)
  have hc1sp : pyIsSpace c1 = false :=
    nonspace_of_lowerChar (by decide) hc1
  have hc2sp : pyIsSpace c2 = false :=
    nonspace_of_lowerChar (by decide) hc2
  have hrest : pyStrip ((p ++ r).drop 5) = p.drop 5 ++ stripR r := by
    rw [hdrop5]
    unfold pyStrip
    rw [show p.drop 5 ++ r = c1 :: (t1 ++ r) from by rw [hp5cons]; simp,
      stripL_cons_nonspace _ hc1sp,
      show c1 :: (t1 ++ r) = p.drop 5 ++ r from by rw [hp5cons]; simp,
      show p.drop 5 ++ r = (t2 ++ [c2]) ++ r from by rw [← hp5snoc],
      stripR_snoc_append t2 c2 hc2sp r, ← hp5snoc]
  have hlowrest : pyLower (p.drop 5 ++ stripR r) =
      strOf "sql:" ++ pyLower (stripR r) := by
    unfold pyLower at hlow5 ⊢
    rw [List.map_append, hlow5]
  have hpre2 : ∀ z : Str,
      (strOf "sql:").isPrefixOf (strOf "sql:" ++ z) = true := by
    intro z
    show List.isPrefixOf ['s','q','l',':'] (['s','q','l',':'] ++ z) = true
    simp +decide [List.isPrefixOf]
  have hdrop4 : (p.drop 5 ++ stripR r).drop 4 = stripR r := by
    rw [← hlen5, List.drop_left]
  unfold detect_tool_request
  rw [if_neg hq]
  simp only [hsplit, hlowapp, hpre1, if_true, hrest, hlowrest, hpre2,
    hdrop4, pyStrip_stripR]

end AIconsal

namespace AIconsal

/-- A query whose trimmed text lowercases to `tool:web:` followed by
anything is detected as the `web` tool with the trimmed remainder as
argument. -/
theorem detect_generic_web (q p r : Str) (hsplit : pyStrip q = p ++ r)
    (hlow : pyLower p = strOf "tool:web:") :
    detect_tool_request q = (some (strOf "web"), some (pyStrip r)) := by
  have hp9 : p.length = 9 := by
    have h := congrArg List.length hlow
    simpa [pyLower] using h
  have hq : ¬ q = [] := by
    intro h
    subst h
    rw [pyStrip_nil] at hsplit
    have hp : p = [] := (List.append_eq_nil.mp hsplit.symm).1
    rw [hp] at hp9
    simp at hp9
  have hlowapp : pyLower (p ++ r) = strOf "tool:web:" ++ pyLower r := by
    unfold pyLower at hlow ⊢
    rw [List.map_append, hlow]
  have hpre1 : ∀ z : Str,
      (strOf "tool:").isPrefixOf (strOf "tool:web:" ++ z) = true := by
    intro z
    show List.isPrefixOf ['t','o','o','l',':']
      (['t','o','o','l',':','w','e','b',':'] ++ z) = true
    simp +decide [List.isPrefixOf]
  have hlow5 : pyLower (p.drop 5) = strOf "web:" := by
    have h := congrArg (fun l => List.drop 5 l) hlow
    simp only at h
    unfold pyLower
    rw [List.map_drop]
    unfold pyLower at h
    rw [h]
    decide
  have hlen5 : (p.drop 5).length = 4 := by
    have h := congrArg List.length hlow5
    simpa [pyLower] using h
  have hdrop5 : (p ++ r).drop 5 = p.drop 5 ++ r := by
    rw [List.drop_append_eq_append_drop, hp9]
    simp
  obtain ⟨c1, t1, hp5cons, hc1, -⟩ :=
    exists_cons_of_lower (p.drop 5) 'w' (strOf "eb:")
      (by rw [hlow5]; decide)
  obtain ⟨t2, c2, hp5snoc, hc2⟩ :=
    exists_snoc_of_lower (p.drop 5) (strOf "web") ':'
      (by rw [hlow5]; decide)
  have hc1sp : pyIsSpace c1 = false :=
    nonspace_of_lowerChar (by decide) hc1
  have hc2sp : pyIsSpace c2 = false :=
    nonspace_of_lowerChar (by decide) hc2
  have hrest : pyStrip ((p ++ r).drop 5) = p.drop 5 ++ stripR r := by
    rw [hdrop5]
    unfold pyStrip
    rw [show p.drop 5 ++ r = c1 :: (t1 ++ r) from by rw [hp5cons]; simp,
      stripL_cons_nonspace _ hc1sp,
      show c1 :: (t1 ++ r) = p.drop 5 ++ r from by rw [hp5cons]; simp,
      show p.drop 5 ++ r = (t2 ++ [c2]) ++ r from by rw [← hp5snoc],
      stripR_snoc_append t2 c2 hc2sp r, ← hp5snoc]
  have hlowrest : pyLower (p.drop 5 ++ stripR r) =
      strOf "web:" ++ pyLower (stripR r) := by
    unfold pyLower at hlow5 ⊢
    rw [List.map_append, hlow5]
  have hpre2 : ∀ z : Str,
      (strOf "sql:").isPrefixOf (strOf "web:" ++ z) = false := by
    intro z
    show List.isPrefixOf ['s','q','l',':'] (['w','e','b',':'] ++ z) = false
    simp +decide [List.isPrefixOf]
  have hpre3 : ∀ z : Str,
      (strOf "web:").isPrefixOf (strOf "web:" ++ z) = true := by
    intro z
    show List.isPrefixOf ['w','e','b',':'] (['w','e','b',':'] ++ z) = true
    simp +decide [List.isPrefixOf]
  have hdrop4 : (p.drop 5 ++ stripR r).drop 4 = stripR r := by
    rw [← hlen5, List.drop_left]
  unfold detect_tool_request
  rw [if_neg hq]
  simp only [hsplit, hlowapp, hpre1, if_true, hrest, hlowrest, hpre2,
    hpre3, Bool.false_eq_true, if_false, hdrop4, pyStrip_stripR]

/-- A query whose trimmed text lowercases to `tool:search:` followed by
anything is detected as the `web` tool (alias) with the trimmed remainder
as argument. -/
theorem detect_generic_search (q p r : Str) (hsplit : pyStrip q = p ++ r)
    (hlow : pyLower p = strOf "tool:search:") :
    detect_tool_request q = (some (strOf "web"), some (pyStrip r)) := by
  have hp12 : p.length = 12 := by
    have h := congrArg List.length hlow
    simpa [pyLower] using h
  have hq : ¬ q = [] := by
    intro h
    subst h
    rw [pyStrip_nil] at hsplit
    have hp : p = [] := (List.append_eq_nil.mp hsplit.symm).1
    rw [hp] at hp12
    simp at hp12
  have hlowapp : pyLower (p ++ r) = strOf "tool:search:" ++ pyLower r := by
    unfold pyLower at hlow ⊢
    rw [List.map_append, hlow]
  have hpre1 : ∀ z : Str,
      (strOf "tool:").isPrefixOf (strOf "tool:search:" ++ z) = true := by
    intro z
    show List.isPrefixOf ['t','o','o','l',':']
      (['t','o','o','l',':','s','e','a','r','c','h',':'] ++ z) = true
    simp +decide [List.isPrefixOf]
  have hlow5 : pyLower (p.drop 5) = strOf "search:" := by
    have h := congrArg (fun l => List.drop 5 l) hlow
    simp only at h
    unfold pyLower
    rw [List.map_drop]
    unfold pyLower at h
    rw [h]
    decide
  have hlen5 : (p.drop 5).length = 7 := by
    have h := congrArg List.length hlow5
    simpa [pyLower] using h
  have hdrop5 : (p ++ r).drop 5 = p.drop 5 ++ r := by
    rw [List.drop_append_eq_append_drop, hp12]
    simp
  obtain ⟨c1, t1, hp5cons, hc1, -⟩ :=
    exists_cons_of_lower (p.drop 5) 's' (strOf "earch:")
      (by rw [hlow5]; decide)
  obtain ⟨t2, c2, hp5snoc, hc2⟩ :=
    exists_snoc_of_lower (p.drop 5) (strOf "search") ':'
      (by rw [hlow5]; decide)
  have hc1sp : pyIsSpace c1 = false :=
    nonspace_of_lowerChar (by decide) hc1
  have hc2sp : pyIsSpace c2 = false :=
    nonspace_of_lowerChar (by decide) hc2
  have hrest : pyStrip ((p ++ r).drop 5) = p.drop 5 ++ stripR r := by
    rw [hdrop5]
    unfold pyStrip
    rw [show p.drop 5 ++ r = c1 :: (t1 ++ r) from by rw [hp5cons]; simp,
      stripL_cons_nonspace _ hc1sp,
      show c1 :: (t1 ++ r) = p.drop 5 ++ r from by rw [hp5cons]; simp,
      show p.drop 5 ++ r = (t2 ++ [c2]) ++ r from by rw [← hp5snoc],
      stripR_snoc_append t2 c2 hc2sp r, ← hp5snoc]
  have hlowrest : pyLower (p.drop 5 ++ stripR r) =
      strOf "search:" ++ pyLower (stripR r) := by
    unfold pyLower at hlow5 ⊢
    rw [List.map_append, hlow5]
  have hpre2 : ∀ z : Str,
      (strOf "sql:").isPrefixOf (strOf "search:" ++ z) = false := by
    intro z
    show List.isPrefixOf ['s','q','l',':']
      (['s','e','a','r','c','h',':'] ++ z) = false
    simp +decide [List.isPrefixOf]
  have hpre3 : ∀ z : Str,
      (strOf "web:").isPrefixOf (strOf "search:" ++ z) = false := by
    intro z
    show List.isPrefixOf ['w','e','b',':']
      (['s','e','a','r','c','h',':'] ++ z) = false
    simp +decide [List.isPrefixOf]
  have hpre4 : ∀ z : Str,
      (strOf "search:").isPrefixOf (strOf "search:" ++ z) = true := by
    intro z
    show List.isPrefixOf ['s','e','a','r','c','h',':']
      (['s','e','a','r','c','h',':'] ++ z) = true
    simp +decide [List.isPrefixOf]
  have hdrop7 : (p.drop 5 ++ stripR r).drop 7 = stripR r := by
    rw [← hlen5, List.drop_left]
  unfold detect_tool_request
  rw [if_neg hq]
  simp only [hsplit, hlowapp, hpre1, if_true, hrest, hlowrest, hpre2,
    hpre3, hpre4, Bool.false_eq_true, if_false, hdrop7, pyStrip_stripR]

end AIconsal

namespace AIconsal

theorem appendTrace_tool_name (st : WorkflowState) (ev : TraceEvent) :
    (appendTrace st ev).tool_name = st.tool_name :=
  congrArg CoreView.tool_name (appendTrace_core st ev)

theorem appendTrace_tool_input (st : WorkflowState) (ev : TraceEvent) :
    (appendTrace st ev).tool_input = st.tool_input :=
  congrArg CoreView.tool_input (appendTrace_core st ev)

/-- When `detect_tool_request` finds a (non-empty) tool name,
`_analyze_query` stores `query_type = "tool"` with that tool name and
argument. -/
theorem analyzeQuery_tool_fields (env : Env) (st : WorkflowState)
    (t a : Str)
    (hd : detect_tool_request st.user_query = (some t, some a))
    (ht : t ≠ []) :
    (analyzeQuery env st).query_type = strOf "tool" ∧
    (analyzeQuery env st).tool_name = some t ∧
    (analyzeQuery env st).tool_input = some a := by
  have htr : truthyOpt (detect_tool_request st.user_query).1 = true := by
    rw [hd]
    simpa [truthyOpt] using ht
  unfold analyzeQuery
  rw [if_pos htr]
  refine ⟨?_, ?_, ?_⟩
  all_goals
    simp only []
    split <;>
      simp [appendTrace_query_type, appendTrace_tool_name,
        appendTrace_tool_input, hd]

/-- C2: for every query whose trimmed text, case-insensitively, starts with
a recognized tool prefix (`sql:`, `web:`, `search:`, or the generic
`tool:sql:` / `tool:web:` / `tool:search:` forms), detection returns the
canonical tool name with the text after the prefix trimmed, and
classification stores `query_type = "tool"`, that tool name and that
argument.  The prefix hypothesis is expressed as a split
`pyStrip query = p ++ r` with `pyLower p` equal to the prefix literal. -/
theorem tool_prefix_classification (env : Env) (st : WorkflowState)
    (lit canon : Str) (hmem : (lit, canon) ∈ toolPrefixTable)
    (p r : Str) (hsplit : pyStrip st.user_query = p ++ r)
    (hlow : pyLower p = lit) :
    detect_tool_request st.user_query = (some canon, some (pyStrip r)) ∧
    ((analyzeQuery env st).query_type = strOf "tool" ∧
     (analyzeQuery env st).tool_name = some canon ∧
     (analyzeQuery env st).tool_input = some (pyStrip r)) := by
  simp only [toolPrefixTable, List.mem_cons, List.not_mem_nil,
    or_false] at hmem
  rcases hmem with h | h | h | h | h | h <;>
      rw [Prod.mk.injEq] at h <;> obtain ⟨h1, h2⟩ := h <;>
      subst h1 <;> subst h2
  · have hdet := detect_direct_sql st.user_query p r hsplit hlow
    exact ⟨hdet, analyzeQuery_tool_fields env st _ _ hdet (by decide)⟩
  · have hdet := detect_direct_web st.user_query p r hsplit hlow
    exact ⟨hdet, analyzeQuery_tool_fields env st _ _ hdet (by decide)⟩
  · have hdet := detect_direct_search st.user_query p r hsplit hlow
    exact ⟨hdet, analyzeQuery_tool_fields env st _ _ hdet (by decide)⟩
  · have hdet := detect_generic_sql st.user_query p r hsplit hlow
    exact ⟨hdet, analyzeQuery_tool_fields env st _ _ hdet (by decide)⟩
  · have hdet := detect_generic_web st.user_query p r hsplit hlow
    exact ⟨hdet, analyzeQuery_tool_fields env st _ _ hdet (by decide)⟩
  · have hdet := detect_generic_search st.user_query p r hsplit hlow
    exact ⟨hdet, analyzeQuery_tool_fields env st _ _ hdet (by decide)⟩

/-- C2 (witness): the statement at the concrete query `"SQL: SELECT 1"`. -/
theorem tool_prefix_classification_witness :
    detect_tool_request (strOf "SQL: SELECT 1") =
      (some (strOf "sql"), some (pyStrip (strOf " SELECT 1"))) ∧
    ((analyzeQuery envNoLLM
        (initialState (strOf "SQL: SELECT 1") [] [] none
          false)).query_type = strOf "tool" ∧
     (analyzeQuery envNoLLM
        (initialState (strOf "SQL: SELECT 1") [] [] none
          false)).tool_name = some (strOf "sql") ∧
     (analyzeQuery envNoLLM
        (initialState (strOf "SQL: SELECT 1") [] [] none
          false)).tool_input = some (pyStrip (strOf " SELECT 1"))) :=
  tool_prefix_classification envNoLLM
    (initialState (strOf "SQL: SELECT 1") [] [] none false)
    (strOf "sql:") (strOf "sql") (by decide)
    (strOf "SQL:") (strOf " SELECT 1") (by decide) (by decide)

end AIconsal

namespace AIconsal

/-! ### Retry-loop lemmas for the Gemini provider -/

theorem genLoop_cons_exc (primary : Nat → GenAttempt) (base t : ℚ)
    (j : Nat) (rest : List Nat) (le : Option PyErr) (b : Bool) (m : Str)
    (hj : primary j = .exc b m)
    (hrl : is_rate_limit_error (.excErr b m) = true) :
    genLoop primary base t (j :: rest) le =
      { exit := (genLoop primary base t rest (some (.excErr b m))).exit,
        attempts :=
          (genLoop primary base t rest (some (.excErr b m))).attempts + 1,
        sleeps := base * 2 ^ j ::
          (genLoop primary base t rest (some (.excErr b m))).sleeps } := by
  conv_lhs => rw [genLoop]
  rw [hj]
  simp [hrl]

theorem genLoop_cons_timeout (primary : Nat → GenAttempt) (base t : ℚ)
    (j : Nat) (rest : List Nat) (le : Option PyErr)
    (hj : primary j = .timeout) :
    genLoop primary base t (j :: rest) le =
      ⟨.fellThrough (some (.timeoutErr (timeoutErrText t))), 1, []⟩ := by
  conv_lhs => rw [genLoop]
  rw [hj]

/-- Processing a block of rate-limited attempts accumulates one backoff
sleep `base * 2 ^ i` per attempt and continues with the remaining indices
(for some threaded last error). -/
theorem genLoop_append_rl (primary : Nat → GenAttempt) (base t : ℚ)
    (pre : List Nat)
    (hpre : ∀ i ∈ pre, isRateLimitAttempt (primary i) = true) :
    ∀ (rest : List Nat) (le : Option PyErr), ∃ le',
    genLoop primary base t (pre ++ rest) le =
      { exit := (genLoop primary base t rest le').exit,
        attempts := (genLoop primary base t rest le').attempts + pre.length,
        sleeps := pre.map (fun i => base * 2 ^ i) ++
          (genLoop primary base t rest le').sleeps } := by
  induction pre with
  | nil => intro rest le; exact ⟨le, by simp⟩
  | cons j pre' ih =>
      intro rest le
      rcases hjp : primary j with raw | _ | ⟨b, m⟩
      · have h := hpre j (by simp)
        rw [hjp, show isRateLimitAttempt (GenAttempt.ok raw) = false from
          rfl] at h
        simp at h
      · have h := hpre j (by simp)
        rw [hjp, show isRateLimitAttempt GenAttempt.timeout = false from
          rfl] at h
        simp at h
      · have hrl : is_rate_limit_error (.excErr b m) = true := by
          have h := hpre j (by simp)
          simpa [isRateLimitAttempt, hjp] using h
        obtain ⟨le', hrec⟩ :=
          ih (fun i hi => hpre i (by simp [hi])) rest (some (.excErr b m))
        refine ⟨le', ?_⟩
        rw [List.cons_append, genLoop_cons_exc primary base t j
          (pre' ++ rest) le b m hjp hrl, hrec]
        simp [add_assoc, add_comm]

/-- If an index list splits as a fully rate-limited prefix followed by a
timing-out attempt, the loop stops right after that attempt with the
timeout error, having slept once per prefix attempt. -/
theorem genLoop_rl_then_timeout (primary : Nat → GenAttempt) (base t : ℚ)
    (pre : List Nat) (i : Nat) (tail : List Nat) (le : Option PyErr)
    (hpre : ∀ j ∈ pre, isRateLimitAttempt (primary j) = true)
    (hi : primary i = .timeout) :
    genLoop primary base t (pre ++ i :: tail) le =
      { exit := .fellThrough (some (.timeoutErr (timeoutErrText t))),
        attempts := pre.length + 1,
        sleeps := pre.map (fun j => base * 2 ^ j) } := by
  obtain ⟨le', h⟩ := genLoop_append_rl primary base t pre hpre (i :: tail) le
  rw [h, genLoop_cons_timeout primary base t i tail le' hi]
  simp [add_comm]

/-- Splitting `range n` around a member `i`. -/
theorem range_split (i n : Nat) (h : i < n) :
    ∃ tail, List.range n = List.range i ++ i :: tail := by
  induction n with
  | zero => exact absurd h (by simp)
  | succ n ihn =>
      rcases Nat.lt_or_ge i n with hlt | hge
      · obtain ⟨tail, ht⟩ := ihn hlt
        exact ⟨tail ++ [n], by rw [List.range_succ, ht]; simp⟩
      · have : i = n := Nat.le_antisymm (Nat.lt_succ_iff.mp h) hge
        subst this
        exact ⟨[], by rw [List.range_succ]⟩

/-- `generate` forwards the loop's sleeps untouched. -/
theorem generate_sleeps (cfg : GenCfg) (primary : Nat → GenAttempt)
    (fb : GenAttempt) (hconf : cfg.isConfigured = true) :
    (generate cfg primary fb).sleeps =
      (genLoop primary cfg.baseBackoff cfg.timeoutS
        (List.range cfg.maxRetries) none).sleeps := by
  unfold generate
  rw [if_neg (by simp [hconf])]
  simp only []
  split
  · rfl
  · split <;> rfl

end AIconsal

namespace AIconsal

/-- C7: when every primary attempt hits a rate-limit-class error, the loop
sleeps exactly `base_backoff * 2 ^ attempt` seconds after each attempt
`0 ≤ attempt < max_retries`, and (for a positive base, e.g. the default
2.0s) the resulting delay sequence is strictly increasing. -/
theorem backoff_exponential (cfg : GenCfg) (primary : Nat → GenAttempt)
    (fb : GenAttempt) (hconf : cfg.isConfigured = true)
    (hrl : ∀ i < cfg.maxRetries, isRateLimitAttempt (primary i) = true) :
    (generate cfg primary fb).sleeps =
      (List.range cfg.maxRetries).map
        (fun i => cfg.baseBackoff * 2 ^ i) ∧
    (0 < cfg.baseBackoff →
      ((generate cfg primary fb).sleeps).Pairwise (· < ·)) := by
  have hpre : ∀ i ∈ List.range cfg.maxRetries,
      isRateLimitAttempt (primary i) = true := fun i hi =>
    hrl i (List.mem_range.mp hi)
  obtain ⟨le', h⟩ := genLoop_append_rl primary cfg.baseBackoff cfg.timeoutS
    (List.range cfg.maxRetries) hpre [] none
  rw [List.append_nil] at h
  have hsl : (generate cfg primary fb).sleeps =
      (List.range cfg.maxRetries).map
        (fun i => cfg.baseBackoff * 2 ^ i) := by
    rw [generate_sleeps cfg primary fb hconf, h]
    simp [genLoop]
  refine ⟨hsl, ?_⟩
  intro hb
  rw [hsl]
  refine List.Pairwise.map _ ?_ (List.pairwise_lt_range _)
  intro a b hab
  exact mul_lt_mul_of_pos_left (pow_lt_pow_right₀ one_lt_two hab) hb

/-- C7 (witness): with the default configuration and three consecutive
rate-limit errors the slept delays are 2s, 4s, 8s. -/
theorem backoff_exponential_witness :
    (generate {} (fun _ => GenAttempt.exc false (strOf "429"))
        (GenAttempt.ok [])).sleeps =
      (List.range (3 : Nat)).map (fun i => (2 : ℚ) * 2 ^ i) ∧
    (0 < (2 : ℚ) →
      ((generate {} (fun _ => GenAttempt.exc false (strOf "429"))
        (GenAttempt.ok [])).sleeps).Pairwise (· < ·)) :=
  backoff_exponential {} (fun _ => GenAttempt.exc false (strOf "429"))
    (GenAttempt.ok []) rfl (by decide)

end AIconsal

namespace AIconsal

/-- C6: a per-call timeout on a primary attempt aborts the retry loop
immediately (attempt `i` times out after `i` rate-limited attempts, so
exactly `i + 1` primary calls are issued); afterwards at most one fallback
attempt is made — exactly one when a fallback model is configured, none
otherwise; a fallback reply is returned only when non-empty after trimming;
and when the last error is the timeout (no fallback, empty fallback reply,
or fallback timeout) the fixed timeout message is returned.  The last
hypothesis records that the rendered timeout message contains no
rate-limit token (true of any sane `timeout_s`, in particular the default
30s). -/
theorem timeout_aborts_retries (cfg : GenCfg) (primary : Nat → GenAttempt)
    (fb : GenAttempt) (i : Nat)
    (hconf : cfg.isConfigured = true)
    (hi : i < cfg.maxRetries)
    (hpre : ∀ j < i, isRateLimitAttempt (primary j) = true)
    (htmo : primary i = .timeout)
    (hnotrl : rateLimitText (timeoutErrText cfg.timeoutS) = false) :
    (generate cfg primary fb).primaryAttempts = i + 1 ∧
    (generate cfg primary fb).fallbackAttempts =
      (if cfg.fallbackConfigured then 1 else 0) ∧
    (cfg.fallbackConfigured = false →
      (generate cfg primary fb).text = llmTimeoutMsg) ∧
    (∀ raw, fb = .ok raw → pyStrip raw ≠ [] →
      cfg.fallbackConfigured = true →
      (generate cfg primary fb).text = pyStrip raw) ∧
    (∀ raw, fb = .ok raw → pyStrip raw = [] →
      cfg.fallbackConfigured = true →
      (generate cfg primary fb).text = llmTimeoutMsg) ∧
    (fb = .timeout → cfg.fallbackConfigured = true →
      (generate cfg primary fb).text = llmTimeoutMsg) := by
  obtain ⟨tail, hr⟩ := range_split i cfg.maxRetries hi
  have hpre' : ∀ j ∈ List.range i, isRateLimitAttempt (primary j) = true :=
    fun j hj => hpre j (List.mem_range.mp hj)
  have hloopeq : genLoop primary cfg.baseBackoff cfg.timeoutS
      (List.range cfg.maxRetries) none =
      ⟨.fellThrough (some (.timeoutErr (timeoutErrText cfg.timeoutS))),
        i + 1, (List.range i).map (fun j => cfg.baseBackoff * 2 ^ j)⟩ := by
    rw [hr, genLoop_rl_then_timeout primary cfg.baseBackoff cfg.timeoutS
      (List.range i) i tail none hpre' htmo]
    simp
  have hTOnotRL : is_rate_limit_error
      (.timeoutErr (timeoutErrText cfg.timeoutS)) = false := by
    simp [is_rate_limit_error, isResourceExhaustedErr, pyErrStr, hnotrl]
  have hTOisTO : isTimeoutErr
      (PyErr.timeoutErr (timeoutErrText cfg.timeoutS)) = true := rfl
  by_cases hfc : cfg.fallbackConfigured = true
  · rcases hfb : fb with raw | _ | ⟨b, m⟩
    · by_cases hraw : pyStrip raw = []
      · refine ⟨?_, ?_, ?_, ?_, ?_, ?_⟩ <;>
          · unfold generate
            rw [if_neg (by simp [hconf]), hloopeq]
            simp [hfc, hraw, hTOnotRL, hTOisTO]
      · refine ⟨?_, ?_, ?_, ?_, ?_, ?_⟩
        · unfold generate
          rw [if_neg (by simp [hconf]), hloopeq]
          simp [hfc, hraw]
        · unfold generate
          rw [if_neg (by simp [hconf]), hloopeq]
          simp [hfc, hraw]
        · intro h
          simp [hfc] at h
        · intro raw' hfb' hne hfc'
          injection hfb' with h
          subst h
          unfold generate
          rw [if_neg (by simp [hconf]), hloopeq]
          simp [hfc, hraw]
        · intro raw' hfb' heq hfc'
          injection hfb' with h
          subst h
          exact absurd heq hraw
        · intro hfb' hfc'
          exact absurd hfb' (by simp)
    · refine ⟨?_, ?_, ?_, ?_, ?_, ?_⟩ <;>
        · unfold generate
          rw [if_neg (by simp [hconf]), hloopeq]
          simp [hfc, hTOnotRL, hTOisTO]
    · refine ⟨?_, ?_, ?_, ?_, ?_, ?_⟩ <;>
        · unfold generate
          rw [if_neg (by simp [hconf]), hloopeq]
          simp [hfc]
  · have hfcf : cfg.fallbackConfigured = false := by
      simpa using hfc
    refine ⟨?_, ?_, ?_, ?_, ?_, ?_⟩ <;>
      · unfold generate
        rw [if_neg (by simp [hconf]), hloopeq]
        simp [hfcf, hTOnotRL, hTOisTO]

end AIconsal

namespace AIconsal

/-- C6 (witness): default configuration, first primary attempt times out,
non-empty fallback reply — one primary call, one fallback call, fallback's
trimmed text returned. -/
theorem timeout_aborts_retries_witness :
    (generate {} (fun _ => GenAttempt.timeout)
        (GenAttempt.ok (strOf " hi "))).primaryAttempts = 0 + 1 ∧
    (generate {} (fun _ => GenAttempt.timeout)
        (GenAttempt.ok (strOf " hi "))).fallbackAttempts =
      (if ({} : GenCfg).fallbackConfigured then 1 else 0) ∧
    (({} : GenCfg).fallbackConfigured = false →
      (generate {} (fun _ => GenAttempt.timeout)
        (GenAttempt.ok (strOf " hi "))).text = llmTimeoutMsg) ∧
    (∀ raw, GenAttempt.ok (strOf " hi ") = GenAttempt.ok raw →
      pyStrip raw ≠ [] → ({} : GenCfg).fallbackConfigured = true →
      (generate {} (fun _ => GenAttempt.timeout)
        (GenAttempt.ok (strOf " hi "))).text = pyStrip raw) ∧
    (∀ raw, GenAttempt.ok (strOf " hi ") = GenAttempt.ok raw →
      pyStrip raw = [] → ({} : GenCfg).fallbackConfigured = true →
      (generate {} (fun _ => GenAttempt.timeout)
        (GenAttempt.ok (strOf " hi "))).text = llmTimeoutMsg) ∧
    (GenAttempt.ok (strOf " hi ") = GenAttempt.timeout →
      ({} : GenCfg).fallbackConfigured = true →
      (generate {} (fun _ => GenAttempt.timeout)
        (GenAttempt.ok (strOf " hi "))).text = llmTimeoutMsg) :=
  timeout_aborts_retries {} (fun _ => GenAttempt.timeout)
    (GenAttempt.ok (strOf " hi ")) 0 rfl (by decide)
    (fun j hj => absurd hj (by simp)) rfl (by decide)

end AIconsal

namespace AIconsal

/-! ### Concrete sanity checks -/

example : detect_tool_request (strOf "sql: SELECT 1") =
    (some (strOf "sql"), some (strOf "SELECT 1")) := by decide

example : detect_tool_request (strOf "  TOOL: Search:  cats ") =
    (some (strOf "web"), some (strOf "cats")) := by decide

example : detect_tool_request (strOf "tool: frobnicate") = (none, none) := by
  decide

example : detect_tool_request (strOf "hello") = (none, none) := by decide

example :
    (async_execute_tool (some (strOf "SQL")) (strOf "SELECT 1") 5 .ok 3).output =
      sql.run (strOf "SELECT 1") := by decide

example :
    (async_execute_tool none (strOf "x") 5 .ok 0).error =
      some (strOf "unknown_tool") := by decide

example :
    generate {} (fun _ => .ok (strOf " hi ")) .timeout =
      ⟨strOf "hi", 1, 0, []⟩ := by decide

example :
    generate {} (fun _ => .exc false (strOf "HTTP 429 quota")) (.ok (strOf "fb")) =
      ⟨strOf "fb", 3, 1, [2, 4, 8]⟩ := by
  simp only [show (3 : Nat) = 0 + 1 + 1 + 1 by rfl, List.range_succ,
    List.range_zero]
  simp +decide [generate, genLoop, is_rate_limit_error, isResourceExhaustedErr,
    pyErrStr]
  norm_num

example :
    generate { fallbackConfigured := false } (fun _ => .timeout) (.ok (strOf "fb")) =
      ⟨llmTimeoutMsg, 1, 0, []⟩ := by decide

example :
    (process_query envNoLLM .completes (strOf "sql: SELECT 1") [] [] none
        false none).1 =
      strOf "[tool:sql] 実行結果 (took 7ms):\n" ++ sql.run (strOf "SELECT 1") := by
  decide

example :
    (process_query envNoLLM .completes (strOf "改善活動について") [] [] none
        false none).1 = strOf "hello" := by decide

example :
    (process_query envLLMFail .completes (strOf "こんにちは") [] [] none true
        none).2 =
      some (buildDebugInfo (runBranch envLLMFail .general
        (analyzeQuery envLLMFail
          (initialState (strOf "こんにちは") [] [] none true)))) := by decide

end AIconsal
